import Mathlib

/-!
Verification of the QuoteCraft quote domain: a shallow embedding of the
Python source (`src/database/operations.py`, `src/services/token_service.py`,
`src/utils/helpers.py`, and the email-send block of the quotes page) into
Lean, together with theorems settling the specification claims.

Modelling conventions:
* SQLite tables are lists of row structures kept in insertion (rowid) order,
  so `ORDER BY id DESC LIMIT 1` reads the last matching element.
* Money values (`unit_price`, `discount_value`, totals) are rationals.
* Timestamps are abstract naturals; `timedelta(days = d)` is `+ d` in the
  same unit, so order comparisons are preserved.
* Randomness (`secrets.token_urlsafe`) is modelled by passing the freshly
  generated token as an explicit argument.
* `ORDER BY name` clauses only permute query results and are dropped; no
  claim depends on result order.
-/

/-! ## Decimal strings: Python `f"{n:04d}"`, `str.split("-")` and `int(...)` -/

/-- The character for a single decimal digit. -/
def digitChar10 : Nat → Char
  | 0 => '0'
  | 1 => '1'
  | 2 => '2'
  | 3 => '3'
  | 4 => '4'
  | 5 => '5'
  | 6 => '6'
  | 7 => '7'
  | 8 => '8'
  | _ => '9'

/-- Big-endian decimal digits of `n`, prepended to `acc`; mirrors Python's
decimal printing.  `fuel` bounds the recursion (`n + 1` always suffices). -/
def decCharsAux : Nat → Nat → List Char → List Char
  | 0, _, acc => acc
  | fuel + 1, n, acc =>
    if n < 10 then digitChar10 (n % 10) :: acc
    else decCharsAux fuel (n / 10) (digitChar10 (n % 10) :: acc)

/-- Decimal representation of `n` as a list of characters. -/
def decChars (n : Nat) : List Char :=
  decCharsAux (n + 1) n []

/-- Python `f"{n:04d}"`: zero-pad the decimal representation to width 4. -/
def pad4 (n : Nat) : List Char :=
  List.replicate (4 - (decChars n).length) '0' ++ decChars n

/-- Accumulator loop of Python `int(...)` on a decimal digit string. -/
def parseDecAux : Nat → List Char → Nat
  | a, [] => a
  | a, c :: cs => parseDecAux (a * 10 + (c.toNat - 48)) cs

/-- Python `int(...)` on a decimal digit string. -/
def parseDec (cs : List Char) : Nat :=
  parseDecAux 0 cs

/-- Python `s.split("-")[-1]`: the suffix of `s` after the last dash
(or all of `s` when there is no dash). -/
def lastSeg (cs : List Char) : List Char :=
  ((cs.reverse.takeWhile (fun c => c ≠ '-')).reverse)

/-- Boolean prefix test on character lists (SQL `LIKE 'pfx%'`). -/
def isPfxOf : List Char → List Char → Bool
  | [], _ => true
  | _ :: _, [] => false
  | p :: ps, c :: cs => p == c && isPfxOf ps cs

/-- The source's `prefix = f"QT-{year}-"` as a character list. -/
def pfxChars (year : Nat) : List Char :=
  ['Q', 'T', '-'] ++ decChars year ++ ['-']

/-- The quote number `f"QT-{year}-{seq:04d}"` built by
`generate_quote_number`. -/
def mkNumber (year seq : Nat) : String :=
  String.mk (pfxChars year ++ pad4 seq)

/-- The source's `int(quote_number.split("-")[-1])`. -/
def parseSeq (s : String) : Nat :=
  parseDec (lastSeg s.data)

theorem parseDecAux_nil (a : Nat) : parseDecAux a [] = a := rfl

theorem parseDecAux_cons (a : Nat) (c : Char) (cs : List Char) :
    parseDecAux a (c :: cs) = parseDecAux (a * 10 + (c.toNat - 48)) cs := rfl

theorem digit_toNat_sub (d : Nat) (hd : d < 10) :
    (digitChar10 d).toNat - 48 = d := by
  interval_cases d <;> decide

theorem digit_ne_dash (d : Nat) (hd : d < 10) : digitChar10 d ≠ '-' := by
  interval_cases d <;> decide

theorem decCharsAux_mem (fuel n : Nat) (acc : List Char) :
    ∀ c ∈ decCharsAux fuel n acc, c ∈ acc ∨ ∃ d, d < 10 ∧ c = digitChar10 d := by
  induction fuel generalizing n acc with
  | zero => intro c hc; exact Or.inl hc
  | succ fuel ih =>
    intro c hc
    simp only [decCharsAux] at hc
    by_cases hn : n < 10
    · rw [if_pos hn] at hc
      rcases List.mem_cons.mp hc with h | h
      · exact Or.inr ⟨n % 10, Nat.mod_lt _ (by norm_num), h⟩
      · exact Or.inl h
    · rw [if_neg hn] at hc
      rcases ih (n / 10) _ c hc with h | h
      · rcases List.mem_cons.mp h with h' | h'
        · exact Or.inr ⟨n % 10, Nat.mod_lt _ (by norm_num), h'⟩
        · exact Or.inl h'
      · exact Or.inr h

theorem decChars_ne_dash (n : Nat) : ∀ c ∈ decChars n, c ≠ '-' := by
  intro c hc
  rcases decCharsAux_mem (n + 1) n [] c hc with h | ⟨d, hd, rfl⟩
  · simp at h
  · exact digit_ne_dash d hd

theorem pad4_ne_dash (n : Nat) : ∀ c ∈ pad4 n, c ≠ '-' := by
  intro c hc
  rcases List.mem_append.mp hc with h | h
  · rcases List.eq_of_mem_replicate h with rfl
    decide
  · exact decChars_ne_dash n c h

theorem parseDecAux_decCharsAux (fuel : Nat) :
    ∀ n acc a, n < fuel →
      ∃ k, 0 < k ∧
        parseDecAux a (decCharsAux fuel n acc) = parseDecAux (a * 10 ^ k + n) acc := by
  induction fuel with
  | zero => intro n acc a h; omega
  | succ fuel ih =>
    intro n acc a h
    simp only [decCharsAux]
    by_cases hn : n < 10
    · refine ⟨1, Nat.one_pos, ?_⟩
      rw [if_pos hn, parseDecAux_cons]
      rw [digit_toNat_sub (n % 10) (Nat.mod_lt _ (by norm_num)),
        Nat.mod_eq_of_lt hn, pow_one]
    · have hdiv : n / 10 < fuel := by
        have h1 : n / 10 < n := Nat.div_lt_self (by omega) (by norm_num)
        omega
      rw [if_neg hn]
      obtain ⟨k, hk, heq⟩ := ih (n / 10) (digitChar10 (n % 10) :: acc) a hdiv
      refine ⟨k + 1, by omega, ?_⟩
      rw [heq, parseDecAux_cons]
      rw [digit_toNat_sub (n % 10) (Nat.mod_lt _ (by norm_num))]
      congr 1
      have hmod := Nat.div_add_mod n 10
      calc (a * 10 ^ k + n / 10) * 10 + n % 10
          = a * (10 ^ k * 10) + (10 * (n / 10) + n % 10) := by ring
        _ = a * 10 ^ (k + 1) + n := by rw [hmod, pow_succ]

theorem parseDec_decChars (n : Nat) : parseDec (decChars n) = n := by
  obtain ⟨k, _, heq⟩ :=
    parseDecAux_decCharsAux (n + 1) n [] 0 (Nat.lt_succ_self n)
  simpa [parseDec, decChars, parseDecAux_nil] using heq

theorem parseDec_pad4 (n : Nat) : parseDec (pad4 n) = n := by
  unfold pad4
  have hrep : ∀ k l, parseDecAux 0 (List.replicate k '0' ++ l) = parseDecAux 0 l := by
    intro k
    induction k with
    | zero => intro l; rfl
    | succ k ih =>
      intro l
      rw [List.replicate_succ, List.cons_append, parseDecAux_cons]
      norm_num
      exact ih l
  unfold parseDec
  rw [hrep]
  exact parseDec_decChars n

theorem takeWhile_all_append (p : Char → Bool) (l rest : List Char) (d : Char)
    (hl : ∀ c ∈ l, p c = true) (hd : p d = false) :
    (l ++ d :: rest).takeWhile p = l := by
  induction l with
  | nil => simp [List.takeWhile_cons, hd]
  | cons c cs ih =>
    have hc : p c = true := hl c (List.mem_cons_self _ _)
    have ih' := ih (fun x hx => hl x (List.mem_cons_of_mem _ hx))
    simp [List.takeWhile_cons, hc, ih']

theorem lastSeg_append (xs ys : List Char) (hys : ∀ c ∈ ys, c ≠ '-') :
    lastSeg (xs ++ '-' :: ys) = ys := by
  unfold lastSeg
  have hrev : (xs ++ '-' :: ys).reverse = ys.reverse ++ '-' :: xs.reverse := by
    simp
  rw [hrev, takeWhile_all_append _ _ _ _ ?_ (by decide), List.reverse_reverse]
  intro c hc
  have : c ∈ ys := List.mem_reverse.mp hc
  simpa using hys c this

theorem parseSeq_mkNumber (year seq : Nat) : parseSeq (mkNumber year seq) = seq := by
  unfold parseSeq mkNumber
  have hdata : (String.mk (pfxChars year ++ pad4 seq)).data = pfxChars year ++ pad4 seq := rfl
  rw [hdata]
  have hshape : pfxChars year ++ pad4 seq
      = (['Q', 'T', '-'] ++ decChars year) ++ '-' :: pad4 seq := by
    simp [pfxChars]
  rw [hshape, lastSeg_append _ _ (pad4_ne_dash seq)]
  exact parseDec_pad4 seq

theorem mkNumber_inj (year s₁ s₂ : Nat) (h : mkNumber year s₁ = mkNumber year s₂) :
    s₁ = s₂ := by
  have := congrArg parseSeq h
  rwa [parseSeq_mkNumber, parseSeq_mkNumber] at this

theorem isPfxOf_self_append (p r : List Char) : isPfxOf p (p ++ r) = true := by
  induction p with
  | nil => rfl
  | cons c cs ih => simp [isPfxOf, ih]

/-! ## Data model: rows of the SQLite schema (`src/database/models.py`) -/

/-- A row of the `clients` table. -/
structure ClientRow where
  id : Nat
  name : String
  email : String
  phone : Option String
  company : Option String
  address : Option String
  created_by_user_id : Option Nat
  is_public : Bool
deriving DecidableEq, Repr

/-- A row of the `services` table. -/
structure ServiceRow where
  id : Nat
  name : String
  description : Option String
  base_price : Rat
  category : Option String
  is_active : Bool
  created_by_user_id : Option Nat
  is_public : Bool
deriving DecidableEq, Repr

/-- A row of the `quotes` table. -/
structure QuoteRow where
  id : Nat
  quote_number : String
  client_id : Nat
  issue_date : Nat
  valid_until : Nat
  discount_type : String
  discount_value : Rat
  notes : Option String
  status : String
  view_token : Option String
  token_expires_at : Option Nat
  created_by_user_id : Option Nat
  is_public : Bool
  created_at : Nat
  updated_at : Nat
deriving DecidableEq, Repr

/-- A row of the `quote_items` table. -/
structure QuoteItemRow where
  id : Nat
  quote_id : Nat
  service_id : Nat
  quantity : Rat
  unit_price : Rat
deriving DecidableEq, Repr

/-- The database: each table is a list of rows in insertion (rowid) order,
with `AUTOINCREMENT` counters for the tables whose ids matter here. -/
structure DB where
  clients : List ClientRow
  services : List ServiceRow
  quotes : List QuoteRow
  quote_items : List QuoteItemRow
  next_quote_id : Nat
  next_item_id : Nat
deriving DecidableEq, Repr

/-- One element of the `items_list` argument of `create_quote` /
`update_quote`: `{'service_id': ..., 'quantity': ..., 'unit_price': ...}`. -/
structure ItemInput where
  service_id : Nat
  quantity : Rat
  unit_price : Rat
deriving DecidableEq, Repr

/-- The projection of an item dict that `_calculate_totals` reads:
its `quantity` and `unit_price` keys. -/
structure ItemQU where
  quantity : Rat
  unit_price : Rat
deriving DecidableEq, Repr

/-- The `{"subtotal": ..., "discount": ..., "total": ...}` dict. -/
structure Totals where
  subtotal : Rat
  discount : Rat
  total : Rat
deriving DecidableEq, Repr

/-- Database errors surfaced by SQLite (`sqlite3.IntegrityError` kinds). -/
inductive DbErr where
  | uniqueViolation
  | fkViolation
  | checkViolation
deriving DecidableEq, Repr

/-! ## Money/discount calculator (`operations._calculate_totals`,
`helpers.calculate_discount`) -/

/-- Embedding of `utils/helpers.py calculate_discount`. -/
def calculate_discount (subtotal : Rat) (discount_type : String)
    (discount_value : Rat) : Rat :=
  if discount_type = "percentage" then subtotal * (discount_value / 100)
  else if discount_type = "fixed" then min discount_value subtotal
  else 0

/-- Embedding of `operations._calculate_totals`. -/
def _calculate_totals (items : List ItemQU) (discount_type : String)
    (discount_value : Rat) : Totals :=
  let subtotal := (items.map (fun i => i.quantity * i.unit_price)).sum
  let discount :=
    if discount_type = "percentage" then subtotal * (discount_value / 100)
    else if discount_type = "fixed" then min discount_value subtotal
    else 0
  { subtotal := subtotal, discount := discount, total := subtotal - discount }

/-! ## Permission helpers (`operations.can_modify_item`) -/

/-- The `SELECT created_by_user_id FROM {table} WHERE id = ?` lookup inside
`can_modify_item`: `none` when no row matches, otherwise the row's (nullable)
owner column. -/
def fetchOwner (db : DB) (table : String) (item_id : Nat) : Option (Option Nat) :=
  if table = "clients" then
    (db.clients.find? (fun c => c.id == item_id)).map (fun c => c.created_by_user_id)
  else if table = "services" then
    (db.services.find? (fun s => s.id == item_id)).map (fun s => s.created_by_user_id)
  else if table = "quotes" then
    (db.quotes.find? (fun q => q.id == item_id)).map (fun q => q.created_by_user_id)
  else none

/-- Embedding of `operations.can_modify_item`: admin can modify anything; regular users
only items they own; a missing row or a `None` user yields `false`. -/
def can_modify_item (db : DB) (table : String) (item_id : Nat)
    (user_id : Option Nat) (user_is_admin : Bool) : Bool :=
  if user_is_admin then true
  else
    match user_id with
    | none => false
    | some uid =>
      match fetchOwner db table item_id with
      | none => false
      | some owner => owner == some uid

/-! ## Client queries (`operations.get_all_clients`, `get_client_by_id`) -/

/-- Embedding of `operations.get_all_clients`: admin (`user_id = None`) sees every row;
a user sees own rows plus (optionally) public ones. -/
def get_all_clients (db : DB) (user_id : Option Nat) (include_public : Bool) :
    List ClientRow :=
  match user_id with
  | none => db.clients
  | some uid =>
    if include_public then
      db.clients.filter (fun c => c.created_by_user_id == some uid || c.is_public)
    else
      db.clients.filter (fun c => c.created_by_user_id == some uid)

/-- Embedding of `operations.get_client_by_id`: a bare `WHERE id = ?` lookup with no
ownership filter. -/
def get_client_by_id (db : DB) (client_id : Nat) : Option ClientRow :=
  db.clients.find? (fun c => c.id == client_id)

/-! ## Quote queries and mutations -/

/-- Embedding of `operations.generate_quote_number`: reads the most recent row (by id)
whose number starts with `QT-<year>-`, parses the trailing digits,
increments, and zero-pads. -/
def generate_quote_number (year : Nat) (db : DB) : String :=
  match (db.quotes.filter (fun q => isPfxOf (pfxChars year) q.quote_number.data)).getLast? with
  | some row => mkNumber year (parseSeq row.quote_number + 1)
  | none => mkNumber year 1

/-- Python `notes or None`: empty strings are stored as SQL `NULL`. -/
def strOrNone (s : String) : Option String :=
  if s = "" then none else some s

/-- Constraint checks SQLite runs when `create_quote` inserts the quote row:
`quote_number UNIQUE`, `client_id` foreign key (`PRAGMA foreign_keys = ON`),
and the `CHECK` constraints on `discount_type` and `status`. -/
def quoteInsertErr (db : DB) (qn : String) (client_id : Nat)
    (discount_type status : String) : Option DbErr :=
  if db.quotes.any (fun q => q.quote_number == qn) then some .uniqueViolation
  else if (db.clients.find? (fun c => c.id == client_id)).isNone then some .fkViolation
  else if ¬(discount_type = "percentage" ∨ discount_type = "fixed" ∨ discount_type = "none") then
    some .checkViolation
  else if ¬(status = "draft" ∨ status = "sent" ∨ status = "approved" ∨ status = "rejected") then
    some .checkViolation
  else none

/-- The item-insertion loop of `create_quote` / `update_quote`: each insert
checks the `service_id` foreign key; the first failure aborts the whole
transaction. -/
def insertQuoteItems (db : DB) (qid : Nat) :
    Nat → List ItemInput → Except DbErr (List QuoteItemRow)
  | _, [] => .ok []
  | nid, it :: rest =>
    if (db.services.find? (fun s => s.id == it.service_id)).isSome then
      (insertQuoteItems db qid (nid + 1) rest).map
        (fun rows => ⟨nid, qid, it.service_id, it.quantity, it.unit_price⟩ :: rows)
    else .error .fkViolation

/-- The item rows that a successful insertion loop produces. -/
def itemRowsOf (qid : Nat) : Nat → List ItemInput → List QuoteItemRow
  | _, [] => []
  | nid, it :: rest =>
    ⟨nid, qid, it.service_id, it.quantity, it.unit_price⟩ :: itemRowsOf qid (nid + 1) rest

/-- Embedding of `operations.create_quote`: reserve a number, insert the quote row and all
item rows in one transaction; any failure rolls the whole operation back
(the returned state is the untouched input state).  `today`/`year` stand for
`date.today()` and its year, `now` for `datetime.now()`. -/
def create_quote (today year now : Nat) (db : DB) (client_id : Nat)
    (items_list : List ItemInput) (valid_days : Nat) (discount_type : String)
    (discount_value : Rat) (notes : String) (status : String)
    (created_by_user_id : Option Nat) (is_public : Bool) :
    DB × Except DbErr Nat :=
  let quote_number := generate_quote_number year db
  let valid_until := today + valid_days
  match quoteInsertErr db quote_number client_id discount_type status with
  | some e => (db, .error e)
  | none =>
    let qid := db.next_quote_id
    let row : QuoteRow :=
      { id := qid, quote_number := quote_number, client_id := client_id,
        issue_date := today, valid_until := valid_until,
        discount_type := discount_type, discount_value := discount_value,
        notes := strOrNone notes, status := status,
        view_token := none, token_expires_at := none,
        created_by_user_id := created_by_user_id, is_public := is_public,
        created_at := now, updated_at := now }
    match insertQuoteItems db qid db.next_item_id items_list with
    | .error e => (db, .error e)
    | .ok rows =>
      ({ db with
          quotes := db.quotes ++ [row],
          quote_items := db.quote_items ++ rows,
          next_quote_id := qid + 1,
          next_item_id := db.next_item_id + items_list.length }, .ok qid)

/-- Embedding of `operations.delete_quote`: removes the quote row; `ON DELETE CASCADE`
(with `PRAGMA foreign_keys = ON`) removes its items. -/
def delete_quote (db : DB) (quote_id : Nat) : Bool × DB :=
  (db.quotes.any (fun q => q.id == quote_id),
    { db with
        quotes := db.quotes.filter (fun q => q.id != quote_id),
        quote_items := db.quote_items.filter (fun qi => qi.quote_id != quote_id) })

/-- One row of the `get_all_quotes` result: the quote joined with its
client's name (`JOIN clients` drops quotes whose client is missing). -/
def quoteListRow (db : DB) (status_filter : Option String)
    (user_id : Option Nat) (include_public : Bool) (q : QuoteRow) :
    Option (QuoteRow × String) :=
  (db.clients.find? (fun c => c.id == q.client_id)).bind (fun c =>
    if (match status_filter with
        | some st => q.status == st
        | none => true)
        && (match user_id with
            | none => true
            | some uid =>
              if include_public then
                q.created_by_user_id == some uid || q.is_public
              else
                q.created_by_user_id == some uid)
    then some (q, c.name) else none)

/-- Embedding of `operations.get_all_quotes`: quotes joined with client names, with the
status and ownership filters of the built query. -/
def get_all_quotes (db : DB) (status_filter : Option String)
    (user_id : Option Nat) (include_public : Bool) : List (QuoteRow × String) :=
  db.quotes.filterMap (quoteListRow db status_filter user_id include_public)

/-- The client dict assembled by `get_quote_details`. -/
structure ClientInfo where
  id : Nat
  name : String
  email : String
  phone : Option String
  company : Option String
  address : Option String
deriving DecidableEq, Repr

/-- One element of the `items` list of `get_quote_details`: the item row
joined with its service's name and description. -/
structure JoinedItem where
  item : QuoteItemRow
  service_name : String
  service_description : Option String
deriving DecidableEq, Repr

/-- The `{quote, client, items, totals}` dict returned by
`get_quote_details`. -/
structure QuoteDetails where
  quote : QuoteRow
  client : ClientInfo
  items : List JoinedItem
  totals : Totals
deriving DecidableEq, Repr

/-- Embedding of `operations.get_quote_details`: joins the quote with its client, loads
the items joined with their services, and recomputes the totals with
`_calculate_totals`.  No ownership filter is applied. -/
def get_quote_details (db : DB) (quote_id : Nat) : Option QuoteDetails :=
  match db.quotes.find? (fun q => q.id == quote_id) with
  | none => none
  | some q =>
    match db.clients.find? (fun c => c.id == q.client_id) with
    | none => none
    | some c =>
      let items := (db.quote_items.filter (fun qi => qi.quote_id == quote_id)).filterMap
        (fun qi => (db.services.find? (fun s => s.id == qi.service_id)).map
          (fun s => JoinedItem.mk qi s.name s.description))
      let totals := _calculate_totals
        (items.map (fun j => ItemQU.mk j.item.quantity j.item.unit_price))
        q.discount_type q.discount_value
      some { quote := q,
             client := { id := q.client_id, name := c.name, email := c.email,
                         phone := c.phone, company := c.company, address := c.address },
             items := items, totals := totals }

/-- Embedding of `operations.update_quote_status`: sets `status` and `updated_at`;
returns whether a row was affected. -/
def update_quote_status (db : DB) (quote_id : Nat) (new_status : String)
    (now : Nat) : Bool × DB :=
  (db.quotes.any (fun q => q.id == quote_id),
    { db with
        quotes := db.quotes.map (fun q =>
          if q.id == quote_id then
            { q with status := new_status, updated_at := now }
          else q) })

/-- Constraint checks SQLite runs on the `UPDATE quotes SET ...` statement of
`update_quote`: the `client_id` foreign key and the `CHECK` constraints. -/
def quoteUpdateErr (db : DB) (client_id : Nat)
    (discount_type status : String) : Option DbErr :=
  if (db.clients.find? (fun c => c.id == client_id)).isNone then some .fkViolation
  else if ¬(discount_type = "percentage" ∨ discount_type = "fixed" ∨ discount_type = "none") then
    some .checkViolation
  else if ¬(status = "draft" ∨ status = "sent" ∨ status = "approved" ∨ status = "rejected") then
    some .checkViolation
  else none

/-- Embedding of `operations.update_quote`: updates the editable quote columns, deletes
the old items and reinserts the new list in one transaction; returns `false`
without touching anything when the quote does not exist, and rolls back on
any constraint failure. -/
def update_quote (now : Nat) (db : DB) (quote_id client_id : Nat)
    (items_list : List ItemInput) (discount_type : String)
    (discount_value : Rat) (notes : String) (status : String) :
    DB × Except DbErr Bool :=
  if ¬ db.quotes.any (fun q => q.id == quote_id) then (db, .ok false)
  else
    match quoteUpdateErr db client_id discount_type status with
    | some e => (db, .error e)
    | none =>
      match insertQuoteItems db quote_id db.next_item_id items_list with
      | .error e => (db, .error e)
      | .ok rows =>
        ({ db with
            quotes := db.quotes.map (fun q =>
              if q.id == quote_id then
                { q with client_id := client_id, discount_type := discount_type,
                         discount_value := discount_value, notes := strOrNone notes,
                         status := status, updated_at := now }
              else q),
            quote_items := db.quote_items.filter (fun qi => qi.quote_id != quote_id) ++ rows,
            next_item_id := db.next_item_id + items_list.length }, .ok true)

/-! ## Token service (`src/services/token_service.py`) -/

/-- Embedding of `token_service.get_quote_by_token`: empty tokens fail immediately; then
the quote with exactly this `view_token` is looked up, and a stored expiry in
the past invalidates it. -/
def get_quote_by_token (now : Nat) (db : DB) (token : String) : Option Nat :=
  if token = "" then none
  else
    match db.quotes.find? (fun q => q.view_token == some token) with
    | none => none
    | some row =>
      match row.token_expires_at with
      | some expiry => if now > expiry then none else some row.id
      | none => some row.id

/-- Embedding of `token_service.get_token_for_quote`: the stored token, or `None` when
the quote is missing or has no token. -/
def get_token_for_quote (db : DB) (quote_id : Nat) : Option String :=
  (db.quotes.find? (fun q => q.id == quote_id)).bind (fun q => q.view_token)

/-- Embedding of `token_service.create_quote_token`: stores a freshly generated token
(passed in as `token`, standing for `generate_token()`) with
`token_expires_at = now + expiry_days` and returns it. -/
def create_quote_token (db : DB) (quote_id : Nat) (token : String)
    (now expiry_days : Nat) : String × DB :=
  (token,
    { db with
        quotes := db.quotes.map (fun q =>
          if q.id == quote_id then
            { q with view_token := some token,
                     token_expires_at := some (now + expiry_days),
                     updated_at := now }
          else q) })

/-- Embedding of `token_service.ensure_quote_token`: Python `if existing:` — an existing
non-empty token is returned unchanged; otherwise a new token is minted. -/
def ensure_quote_token (db : DB) (quote_id : Nat) (freshTok : String)
    (now expiry_days : Nat) : String × DB :=
  match get_token_for_quote db quote_id with
  | some t => if t = "" then create_quote_token db quote_id freshTok now expiry_days
              else (t, db)
  | none => create_quote_token db quote_id freshTok now expiry_days

/-! ## Email-send block of `src/pages/3_📄_Orcamentos.py` -/

/-- The confirmed-send branch of `render_list_view`: fetch the details, call
the transport (`send_ok` is its success flag), and only on success and only
when the status read was exactly `draft` mark the quote `sent`. -/
def email_send_action (db : DB) (quote_id : Nat) (send_ok : Bool) (now : Nat) : DB :=
  match get_quote_details db quote_id with
  | none => db
  | some details =>
    if send_ok then
      if details.quote.status == "draft" then
        (update_quote_status db quote_id "sent" now).2
      else db
    else db

/-! ## Success shape of `create_quote` -/

theorem insertQuoteItems_ok (db : DB) (qid : Nat) :
    ∀ (items : List ItemInput) (nid : Nat) (rows : List QuoteItemRow),
      insertQuoteItems db qid nid items = .ok rows →
      rows = itemRowsOf qid nid items := by
  intro items
  induction items with
  | nil =>
    intro nid rows h
    simpa [insertQuoteItems, itemRowsOf] using h.symm
  | cons it rest ih =>
    intro nid rows h
    simp only [insertQuoteItems] at h
    by_cases hs : (db.services.find? (fun s => s.id == it.service_id)).isSome
    · rw [if_pos hs] at h
      cases hrest : insertQuoteItems db qid (nid + 1) rest with
      | error e => rw [hrest] at h; simp [Except.map] at h
      | ok rows' =>
        rw [hrest] at h
        simp only [Except.map] at h
        cases h
        simp [itemRowsOf, ih (nid + 1) rows' hrest]
    · rw [if_neg hs] at h
      simp at h

theorem insertQuoteItems_ok_services (db : DB) (qid : Nat) :
    ∀ (items : List ItemInput) (nid : Nat) (rows : List QuoteItemRow),
      insertQuoteItems db qid nid items = .ok rows →
      ∀ it ∈ items, (db.services.find? (fun s => s.id == it.service_id)).isSome := by
  intro items
  induction items with
  | nil => intro nid rows _ it hit; simp at hit
  | cons it rest ih =>
    intro nid rows h it' hit'
    simp only [insertQuoteItems] at h
    by_cases hs : (db.services.find? (fun s => s.id == it.service_id)).isSome
    · rw [if_pos hs] at h
      rcases List.mem_cons.mp hit' with rfl | hmem
      · exact hs
      · cases hrest : insertQuoteItems db qid (nid + 1) rest with
        | error e => rw [hrest] at h; simp [Except.map] at h
        | ok rows' => exact ih (nid + 1) rows' hrest it' hmem
    · rw [if_neg hs] at h
      simp at h

/-- The row inserted by a successful `create_quote`. -/
def createdRow (today year now : Nat) (db : DB) (client_id : Nat)
    (valid_days : Nat) (discount_type : String) (discount_value : Rat)
    (notes : String) (status : String) (created_by_user_id : Option Nat)
    (is_public : Bool) : QuoteRow :=
  { id := db.next_quote_id, quote_number := generate_quote_number year db,
    client_id := client_id, issue_date := today, valid_until := today + valid_days,
    discount_type := discount_type, discount_value := discount_value,
    notes := strOrNone notes, status := status,
    view_token := none, token_expires_at := none,
    created_by_user_id := created_by_user_id, is_public := is_public,
    created_at := now, updated_at := now }

theorem create_quote_ok_shape (today year now : Nat) (db : DB) (client_id : Nat)
    (items : List ItemInput) (valid_days : Nat) (dt : String) (dv : Rat)
    (notes st : String) (cbu : Option Nat) (ip : Bool) (db' : DB) (qid : Nat)
    (h : create_quote today year now db client_id items valid_days dt dv notes st cbu ip
          = (db', .ok qid)) :
    qid = db.next_quote_id ∧
    db' = { db with
              quotes := db.quotes ++
                [createdRow today year now db client_id valid_days dt dv notes st cbu ip],
              quote_items := db.quote_items ++ itemRowsOf db.next_quote_id db.next_item_id items,
              next_quote_id := db.next_quote_id + 1,
              next_item_id := db.next_item_id + items.length } ∧
    quoteInsertErr db (generate_quote_number year db) client_id dt st = none ∧
    insertQuoteItems db db.next_quote_id db.next_item_id items
      = .ok (itemRowsOf db.next_quote_id db.next_item_id items) := by
  simp only [create_quote] at h
  cases hq : quoteInsertErr db (generate_quote_number year db) client_id dt st with
  | some e => rw [hq] at h; simp at h
  | none =>
    rw [hq] at h
    cases hi : insertQuoteItems db db.next_quote_id db.next_item_id items with
    | error e => rw [hi] at h; simp at h
    | ok rows =>
      rw [hi] at h
      have hrows := insertQuoteItems_ok db db.next_quote_id items db.next_item_id rows hi
      subst hrows
      obtain ⟨h1, h2⟩ := Prod.mk.injEq .. ▸ h
      refine ⟨(Except.ok.injEq .. ▸ h2).symm, ?_, rfl, rfl⟩
      rw [← h1]
      rfl

theorem create_quote_err_shape (today year now : Nat) (db : DB) (client_id : Nat)
    (items : List ItemInput) (valid_days : Nat) (dt : String) (dv : Rat)
    (notes st : String) (cbu : Option Nat) (ip : Bool) (db' : DB) (e : DbErr)
    (h : create_quote today year now db client_id items valid_days dt dv notes st cbu ip
          = (db', .error e)) :
    db' = db := by
  simp only [create_quote] at h
  cases hq : quoteInsertErr db (generate_quote_number year db) client_id dt st with
  | some e' => rw [hq] at h; exact (Prod.mk.injEq .. ▸ h).1.symm
  | none =>
    rw [hq] at h
    cases hi : insertQuoteItems db db.next_quote_id db.next_item_id items with
    | error e' => rw [hi] at h; exact (Prod.mk.injEq .. ▸ h).1.symm
    | ok rows => rw [hi] at h; simp at h

/-! ## Quote-number invariant under create/delete traces -/

/-- Well-formedness of stored quote numbers for `year`: every number is the
fixpoint of parse-then-reformat (hence has the `QT-<year>-` shape), and the
parsed sequence numbers strictly increase in insertion order. -/
def NumsWF (year : Nat) (db : DB) : Prop :=
  (∀ q ∈ db.quotes, q.quote_number = mkNumber year (parseSeq q.quote_number)) ∧
  db.quotes.Pairwise (fun a b => parseSeq a.quote_number < parseSeq b.quote_number)

/-- Database states reachable from a quote-free database by any sequence of
(successful) `create_quote` and `delete_quote` calls within one calendar
year. -/
inductive Reach (year : Nat) : DB → Prop where
  | init (db : DB) (h : db.quotes = []) : Reach year db
  | create (db : DB) (today now client_id : Nat) (items : List ItemInput)
      (valid_days : Nat) (dt : String) (dv : Rat) (notes st : String)
      (cbu : Option Nat) (ip : Bool) (db' : DB) (qid : Nat)
      (hr : Reach year db)
      (hc : create_quote today year now db client_id items valid_days dt dv notes st cbu ip
              = (db', .ok qid)) :
      Reach year db'
  | del (db : DB) (qid : Nat) (hr : Reach year db) :
      Reach year (delete_quote db qid).2

theorem numsWF_filter_all (year : Nat) (db : DB) (h : NumsWF year db) :
    db.quotes.filter (fun q => isPfxOf (pfxChars year) q.quote_number.data) = db.quotes := by
  rw [List.filter_eq_self]
  intro q hq
  rw [h.1 q hq]
  show isPfxOf (pfxChars year) (pfxChars year ++ pad4 (parseSeq q.quote_number)) = true
  exact isPfxOf_self_append _ _

theorem pairwise_lt_getLast?_bound :
    ∀ (l : List Nat) (m : Nat), l.Pairwise (· < ·) → l.getLast? = some m →
      ∀ x ∈ l, x ≤ m := by
  intro l
  induction l with
  | nil => intro m _ hm; simp at hm
  | cons a t ih =>
    intro m hp hm x hx
    rcases List.mem_cons.mp hx with rfl | hx'
    · cases t with
      | nil => simp at hm; omega
      | cons b t' =>
        rw [List.getLast?_cons_cons] at hm
        have hmem : m ∈ b :: t' := by
          obtain ⟨hne, heq⟩ :=
            List.mem_getLast?_eq_getLast (l := b :: t') (x := m) (Option.mem_def.mpr hm)
          rw [heq]
          exact List.getLast_mem hne
        have := (List.pairwise_cons.mp hp).1 m hmem
        omega
    · cases t with
      | nil => simp at hx'
      | cons b t' =>
        rw [List.getLast?_cons_cons] at hm
        exact ih m (List.pairwise_cons.mp hp).2 hm x hx'

theorem generate_spec (year : Nat) (db : DB) (h : NumsWF year db)
    (last : QuoteRow) (hlast : db.quotes.getLast? = some last) :
    generate_quote_number year db = mkNumber year (parseSeq last.quote_number + 1) ∧
    ∀ q ∈ db.quotes, parseSeq q.quote_number ≤ parseSeq last.quote_number := by
  constructor
  · unfold generate_quote_number
    rw [numsWF_filter_all year db h, hlast]
  · intro q hq
    have hmap : (db.quotes.map (fun q => parseSeq q.quote_number)).getLast?
        = some (parseSeq last.quote_number) := by
      rw [List.getLast?_map, hlast]
      rfl
    have hpw : (db.quotes.map (fun q => parseSeq q.quote_number)).Pairwise (· < ·) := by
      rw [List.pairwise_map]
      exact h.2
    exact pairwise_lt_getLast?_bound _ _ hpw hmap _ (List.mem_map_of_mem _ hq)

theorem generate_fresh (year : Nat) (db : DB) (h : NumsWF year db) :
    ∀ q ∈ db.quotes, q.quote_number ≠ generate_quote_number year db := by
  intro q hq heq
  cases hlast : db.quotes.getLast? with
  | none =>
    rw [List.getLast?_eq_none_iff] at hlast
    rw [hlast] at hq
    simp at hq
  | some last =>
    obtain ⟨hgen, hbound⟩ := generate_spec year db h last hlast
    rw [hgen] at heq
    have hfix := h.1 q hq
    rw [hfix] at heq
    have := mkNumber_inj year _ _ heq
    have hle := hbound q hq
    omega

theorem numsWF_create (today year now : Nat) (db : DB) (client_id : Nat)
    (items : List ItemInput) (valid_days : Nat) (dt : String) (dv : Rat)
    (notes st : String) (cbu : Option Nat) (ip : Bool) (db' : DB) (qid : Nat)
    (h : NumsWF year db)
    (hc : create_quote today year now db client_id items valid_days dt dv notes st cbu ip
            = (db', .ok qid)) :
    NumsWF year db' := by
  obtain ⟨-, hdb', -, -⟩ := create_quote_ok_shape today year now db client_id items
    valid_days dt dv notes st cbu ip db' qid hc
  subst hdb'
  have hquotes : ∀ s, (mkNumber year s) = mkNumber year (parseSeq (mkNumber year s)) := by
    intro s; rw [parseSeq_mkNumber]
  cases hlast : db.quotes.getLast? with
  | none =>
    rw [List.getLast?_eq_none_iff] at hlast
    constructor
    · intro q hq
      simp only [createdRow] at hq ⊢
      rcases List.mem_append.mp hq with hold | hnew
      · exact h.1 q hold
      · simp only [List.mem_singleton] at hnew
        subst hnew
        simp only [createdRow]
        unfold generate_quote_number
        rw [numsWF_filter_all year db h, hlast]
        simp only [List.getLast?_nil]
        rw [parseSeq_mkNumber]
    · simp only [createdRow]
      rw [hlast]
      simp
  | some last =>
    obtain ⟨hgen, hbound⟩ := generate_spec year db h last hlast
    constructor
    · intro q hq
      rcases List.mem_append.mp hq with hold | hnew
      · exact h.1 q hold
      · simp only [List.mem_singleton] at hnew
        subst hnew
        simp only [createdRow]
        rw [hgen, parseSeq_mkNumber]
    · rw [List.pairwise_append]
      refine ⟨h.2, List.pairwise_singleton _ _, ?_⟩
      intro a ha b hb
      simp only [List.mem_singleton] at hb
      subst hb
      simp only [createdRow]
      rw [hgen, parseSeq_mkNumber]
      have := hbound a ha
      omega

theorem numsWF_delete (year : Nat) (db : DB) (qid : Nat) (h : NumsWF year db) :
    NumsWF year (delete_quote db qid).2 := by
  constructor
  · intro q hq
    exact h.1 q (List.mem_of_mem_filter hq)
  · exact h.2.sublist (List.filter_sublist _)

theorem reach_numsWF (year : Nat) (db : DB) (h : Reach year db) : NumsWF year db := by
  induction h with
  | init db h0 => exact ⟨by rw [h0]; simp, by rw [h0]; simp⟩
  | create db today now client_id items valid_days dt dv notes st cbu ip db' qid hr hc ih =>
    exact numsWF_create today year now db client_id items valid_days dt dv notes st cbu ip
      db' qid ih hc
  | del db qid hr ih => exact numsWF_delete year db qid ih

/-! ## C2: quote-number uniqueness -/

/-- C2 (amended): in any state reachable by `create_quote`/`delete_quote`
within one year, a successful `create_quote` assigns
`generate_quote_number` as the new quote's number, and that number differs
from the number of every quote currently in the database.  (Numbers of
deleted quotes can be reissued — see the counterexample.) -/
theorem create_number_fresh_among_live (year : Nat) (db : DB)
    (today now client_id : Nat) (items : List ItemInput) (valid_days : Nat)
    (dt : String) (dv : Rat) (notes st : String) (cbu : Option Nat) (ip : Bool)
    (db' : DB) (qid : Nat)
    (hreach : Reach year db)
    (hc : create_quote today year now db client_id items valid_days dt dv notes st cbu ip
            = (db', .ok qid)) :
    (∃ row, db'.quotes = db.quotes ++ [row] ∧
        row.quote_number = generate_quote_number year db) ∧
    ∀ q ∈ db.quotes, q.quote_number ≠ generate_quote_number year db := by
  have hwf := reach_numsWF year db hreach
  obtain ⟨-, hdb', -, -⟩ := create_quote_ok_shape today year now db client_id items
    valid_days dt dv notes st cbu ip db' qid hc
  refine ⟨⟨createdRow today year now db client_id valid_days dt dv notes st cbu ip,
    by rw [hdb'], rfl⟩, generate_fresh year db hwf⟩

/-- The concrete trace refuting C2 as stated: one pre-existing client. -/
def c2Client : ClientRow :=
  { id := 1, name := "Ana", email := "ana@x.com", phone := none, company := none,
    address := none, created_by_user_id := some 1, is_public := false }

/-- Initial state of the C2 trace: no quotes. -/
def c2Db0 : DB :=
  { clients := [c2Client], services := [], quotes := [], quote_items := [],
    next_quote_id := 1, next_item_id := 1 }

/-- After the first `create_quote` (gets `QT-2025-0001`). -/
def c2Db1 : DB :=
  (create_quote 0 2025 0 c2Db0 1 [] 30 "none" 0 "" "draft" none false).1

/-- After the second `create_quote` (gets `QT-2025-0002`). -/
def c2Db2 : DB :=
  (create_quote 0 2025 0 c2Db1 1 [] 30 "none" 0 "" "draft" none false).1

/-- After deleting the second quote. -/
def c2Db3 : DB :=
  (delete_quote c2Db2 2).2

/-- C2 is false as stated: after create, create, delete-the-second, the next
`create_quote` reissues `QT-2025-0002`, a number previously assigned (to the
now-deleted quote id 2) in the same year. -/
theorem quote_number_reuse_after_delete :
    generate_quote_number 2025 c2Db1 = "QT-2025-0002" ∧
    (create_quote 0 2025 0 c2Db1 1 [] 30 "none" 0 "" "draft" none false).2
      = .ok 2 ∧
    (c2Db2.quotes.any (fun q => q.id == 2 && q.quote_number == "QT-2025-0002")) = true ∧
    (delete_quote c2Db2 2).1 = true ∧
    (c2Db3.quotes.any (fun q => q.quote_number == "QT-2025-0002")) = false ∧
    generate_quote_number 2025 c2Db3 = "QT-2025-0002" ∧
    (create_quote 0 2025 0 c2Db3 1 [] 30 "none" 0 "" "draft" none false).2
      = .ok 3 :=
  ⟨rfl, rfl, rfl, rfl, rfl, rfl, rfl⟩

/-- Witness for the amended C2 theorem at the concrete one-create state. -/
theorem create_number_fresh_among_live_witness :
    (∃ row, c2Db2.quotes = c2Db1.quotes ++ [row] ∧
        row.quote_number = generate_quote_number 2025 c2Db1) ∧
    ∀ q ∈ c2Db1.quotes, q.quote_number ≠ generate_quote_number 2025 c2Db1 :=
  create_number_fresh_among_live 2025 c2Db1 0 0 1 [] 30 "none" 0 "" "draft" none false
    c2Db2 2
    (Reach.create c2Db0 0 0 1 [] 30 "none" 0 "" "draft" none false c2Db1 1
      (Reach.init c2Db0 rfl) rfl)
    rfl

/-! ## C1: fixed discounts are clamped to the subtotal -/

/-- C1: with `discountType = "fixed"` and `d ≥ 0`, `_calculate_totals`
yields `discount = min d subtotal` (agreeing with
`helpers.calculate_discount`); when `d > subtotal` the discount equals the
subtotal and the total is `0`; and the total is never negative. -/
theorem fixed_discount_clamped (items : List ItemQU) (d : Rat) (hd : 0 ≤ d) :
    (_calculate_totals items "fixed" d).subtotal
        = (items.map (fun i => i.quantity * i.unit_price)).sum ∧
    (_calculate_totals items "fixed" d).discount
        = min d (_calculate_totals items "fixed" d).subtotal ∧
    (_calculate_totals items "fixed" d).discount
        = calculate_discount (_calculate_totals items "fixed" d).subtotal "fixed" d ∧
    ((_calculate_totals items "fixed" d).subtotal < d →
      (_calculate_totals items "fixed" d).discount
          = (_calculate_totals items "fixed" d).subtotal ∧
      (_calculate_totals items "fixed" d).total = 0) ∧
    0 ≤ (_calculate_totals items "fixed" d).total := by
  have hcalc : ∀ (its : List ItemQU) (dv : Rat),
      _calculate_totals its "fixed" dv
        = { subtotal := (its.map (fun i => i.quantity * i.unit_price)).sum,
            discount := min dv ((its.map (fun i => i.quantity * i.unit_price)).sum),
            total := (its.map (fun i => i.quantity * i.unit_price)).sum
              - min dv ((its.map (fun i => i.quantity * i.unit_price)).sum) } :=
    fun its dv => rfl
  have hdisc : ∀ (s dv : Rat), calculate_discount s "fixed" dv = min dv s :=
    fun s dv => rfl
  simp only [hcalc, hdisc]
  refine ⟨trivial, trivial, trivial,
    fun hlt => ⟨min_eq_right hlt.le, by rw [min_eq_right hlt.le, sub_self]⟩,
    sub_nonneg.mpr (min_le_right _ _)⟩

/-- Witness for C1 at the scenario of §8 of the spec: one item of quantity 3
at unit price 100 with a fixed discount of 50, plus the over-discount case
`d = 400 > 300`. -/
theorem fixed_discount_clamped_witness :
    (0 : Rat) ≤ 50 ∧
    (_calculate_totals [ItemQU.mk 3 100] "fixed" 50).discount
        = min 50 (_calculate_totals [ItemQU.mk 3 100] "fixed" 50).subtotal ∧
    ((_calculate_totals [ItemQU.mk 3 100] "fixed" 400).subtotal < 400 →
      (_calculate_totals [ItemQU.mk 3 100] "fixed" 400).total = 0) := by
  refine ⟨by norm_num, (fixed_discount_clamped [ItemQU.mk 3 100] 50 (by norm_num)).2.1, ?_⟩
  intro hlt
  exact ((fixed_discount_clamped [ItemQU.mk 3 100] 400 (by norm_num)).2.2.2.1 hlt).2

/-! ## C7: modification rights -/

/-- C7: `can_modify_item` is always true for an admin; for a non-admin user
it is true exactly when the row exists and its stored `created_by_user_id`
equals the user's id — `is_public` plays no role. -/
theorem can_modify_item_policy (db : DB) (table : String) (item_id : Nat) :
    (∀ user_id, can_modify_item db table item_id user_id true = true) ∧
    (∀ uid owner, fetchOwner db table item_id = some owner →
      (can_modify_item db table item_id (some uid) false = true ↔ owner = some uid)) := by
  constructor
  · intro user_id
    rfl
  · intro uid owner hown
    unfold can_modify_item
    simp [hown]

/-- A sample database: one private client, service, quote (with one item and
a share token) all owned by user 1. -/
def exClient : ClientRow :=
  { id := 1, name := "Ana", email := "ana@x.com", phone := none, company := none,
    address := none, created_by_user_id := some 1, is_public := false }

/-- Sample service owned by user 1. -/
def exService : ServiceRow :=
  { id := 1, name := "Consulting", description := none, base_price := 100,
    category := none, is_active := true, created_by_user_id := some 1,
    is_public := false }

/-- Sample private quote owned by user 1, with view token `"tok1"` expiring
at time 10. -/
def exQuote : QuoteRow :=
  { id := 1, quote_number := "QT-2025-0001", client_id := 1, issue_date := 0,
    valid_until := 30, discount_type := "none", discount_value := 0, notes := none,
    status := "draft", view_token := some "tok1", token_expires_at := some 10,
    created_by_user_id := some 1, is_public := false, created_at := 0, updated_at := 0 }

/-- Sample quote item: quantity 3 at unit price 100. -/
def exItem : QuoteItemRow :=
  { id := 1, quote_id := 1, service_id := 1, quantity := 3, unit_price := 100 }

/-- The sample database assembled. -/
def exDb : DB :=
  { clients := [exClient], services := [exService], quotes := [exQuote],
    quote_items := [exItem], next_quote_id := 2, next_item_id := 2 }

/-- Witness for C7 on the sample database. -/
theorem can_modify_item_policy_witness :
    can_modify_item exDb "clients" 1 (some 2) true = true ∧
    (can_modify_item exDb "clients" 1 (some 1) false = true ↔ some 1 = some (1 : Nat)) ∧
    (can_modify_item exDb "clients" 1 (some 2) false = true ↔ some 1 = some (2 : Nat)) :=
  ⟨(can_modify_item_policy exDb "clients" 1).1 (some 2),
   (can_modify_item_policy exDb "clients" 1).2 1 (some 1) rfl,
   (can_modify_item_policy exDb "clients" 1).2 2 (some 1) rfl⟩

/-! ## C3: detail-by-id lookups bypass the ownership filter -/

/-- C3 fails on the code: for non-admin user 2, the list queries correctly
hide user 1's private client and quote, but the detail-by-id lookups
`get_client_by_id` and `get_quote_details` (which take no principal at all)
return the full data anyway. -/
theorem detail_lookup_skips_ownership_filter :
    get_all_clients exDb (some 2) true = [] ∧
    get_client_by_id exDb 1 = some exClient ∧
    get_all_quotes exDb none (some 2) true = [] ∧
    (get_quote_details exDb 1).isSome = true ∧
    (get_quote_details exDb 1).map (fun d => d.quote.id) = some 1 ∧
    (get_quote_details exDb 1).map (fun d => d.client.name) = some "Ana" :=
  ⟨rfl, rfl, rfl, rfl, rfl, rfl⟩

/-! ## C6: email send marks `draft` quotes `sent` only on transport success -/

theorem get_quote_details_quote (db : DB) (quote_id : Nat) (d : QuoteDetails)
    (h : get_quote_details db quote_id = some d) :
    db.quotes.find? (fun q' => q'.id == quote_id) = some d.quote := by
  unfold get_quote_details at h
  split at h
  next hq => exact absurd h (by simp)
  next q0 hq =>
    split at h
    next hc => exact absurd h (by simp)
    next c hc =>
      simp only [Option.some.injEq] at h
      subst h
      simp [hq]

theorem find_map_update (l : List QuoteRow) (qid : Nat) (f : QuoteRow → QuoteRow)
    (hf : ∀ q, (f q).id = q.id) :
    ∀ (q : QuoteRow), l.find? (fun q' => q'.id == qid) = some q →
      (l.map (fun q' => if q'.id == qid then f q' else q')).find?
          (fun q' => q'.id == qid) = some (f q) := by
  induction l with
  | nil => intro q h; simp at h
  | cons a t ih =>
    intro q h
    rw [List.find?_cons] at h
    rw [List.map_cons, List.find?_cons]
    by_cases ha : (a.id == qid) = true
    · rw [ha] at h
      dsimp only at h
      simp only [Option.some.injEq] at h
      subst h
      have hfa : ((f a).id == qid) = true := by rw [hf a]; exact ha
      simp only [if_pos ha, hfa]
    · have hab : (a.id == qid) = false := by simpa using ha
      rw [hab] at h
      dsimp only at h
      simp only [hab, Bool.false_eq_true, if_false]
      exact ih q h

/-- C6: the email-send block never changes any state when the transport
fails; never changes any state when the quote's status at send time is not
`draft`; and on transport success for a `draft` quote it sets exactly that
quote's status to `sent`. -/
theorem email_send_sets_sent_only_on_success_draft (db : DB) (qid : Nat)
    (ok : Bool) (now : Nat) :
    (ok = false → email_send_action db qid ok now = db) ∧
    (∀ q, db.quotes.find? (fun q' => q'.id == qid) = some q → q.status ≠ "draft" →
      email_send_action db qid ok now = db) ∧
    (∀ q, db.quotes.find? (fun q' => q'.id == qid) = some q → q.status = "draft" →
      ok = true → (get_quote_details db qid).isSome = true →
      (email_send_action db qid ok now).quotes.find? (fun q' => q'.id == qid)
        = some { q with status := "sent", updated_at := now }) := by
  refine ⟨?_, ?_, ?_⟩
  · intro hok
    subst hok
    unfold email_send_action
    cases get_quote_details db qid <;> simp
  · intro q hq hst
    unfold email_send_action
    cases hdet : get_quote_details db qid with
    | none => rfl
    | some d =>
      have hdq := get_quote_details_quote db qid d hdet
      rw [hq] at hdq
      simp only [Option.some.injEq] at hdq
      have hds : (d.quote.status == "draft") = false := by
        rw [← hdq]
        exact beq_eq_false_iff_ne.mpr hst
      dsimp only
      rw [hds]
      cases ok <;> simp
  · intro q hq hst hok hsome
    subst hok
    unfold email_send_action
    cases hdet : get_quote_details db qid with
    | none => rw [hdet] at hsome; simp at hsome
    | some d =>
      have hdq := get_quote_details_quote db qid d hdet
      rw [hq] at hdq
      simp only [Option.some.injEq] at hdq
      have hds : (d.quote.status == "draft") = true := by
        rw [← hdq]
        exact beq_iff_eq.mpr hst
      dsimp only
      rw [hds]
      simp only [if_true]
      show (update_quote_status db qid "sent" now).2.quotes.find? _ = _
      unfold update_quote_status
      exact find_map_update db.quotes qid
        (fun q' => { q' with status := "sent", updated_at := now })
        (fun q' => rfl) q hq

/-- Witness for C6 on the sample database (draft quote, successful send, and
the guard cases). -/
theorem email_send_sets_sent_only_on_success_draft_witness :
    email_send_action exDb 1 false 5 = exDb ∧
    (email_send_action exDb 1 true 5).quotes.find? (fun q' => q'.id == 1)
      = some { exQuote with status := "sent", updated_at := 5 } :=
  ⟨(email_send_sets_sent_only_on_success_draft exDb 1 false 5).1 rfl,
   (email_send_sets_sent_only_on_success_draft exDb 1 true 5).2.2 exQuote rfl rfl rfl rfl⟩

/-! ## C9: `ensure_quote_token` is idempotent -/

/-- C9: when the quote stores a non-empty token, `ensure_quote_token`
returns it and leaves the database untouched (no rotation of token or
expiry); when no token is stored it mints the fresh token with
`token_expires_at = now + expiry_days`. -/
theorem ensure_quote_token_idempotent (db : DB) (quote_id : Nat)
    (freshTok : String) (now days : Nat) (q : QuoteRow)
    (hq : db.quotes.find? (fun q' => q'.id == quote_id) = some q) :
    (∀ t, q.view_token = some t → t ≠ "" →
      ensure_quote_token db quote_id freshTok now days = (t, db)) ∧
    (q.view_token = none →
      ensure_quote_token db quote_id freshTok now days
        = (freshTok, (create_quote_token db quote_id freshTok now days).2) ∧
      (create_quote_token db quote_id freshTok now days).2.quotes.find?
          (fun q' => q'.id == quote_id)
        = some { q with view_token := some freshTok,
                        token_expires_at := some (now + days),
                        updated_at := now }) := by
  have hget : get_token_for_quote db quote_id = q.view_token := by
    unfold get_token_for_quote
    rw [hq]
    rfl
  constructor
  · intro t ht hne
    unfold ensure_quote_token
    rw [hget, ht]
    dsimp only
    rw [if_neg hne]
  · intro hnone
    refine ⟨?_, ?_⟩
    · unfold ensure_quote_token
      rw [hget, hnone]
      rfl
    · unfold create_quote_token
      dsimp only
      exact find_map_update db.quotes quote_id
        (fun q' =>
          { q' with
              view_token := some freshTok,
              token_expires_at := some (now + days),
              updated_at := now })
        (fun q' => rfl) q hq

/-- The sample quote without a token, and its database. -/
def exQuoteBare : QuoteRow :=
  { exQuote with view_token := none, token_expires_at := none }

/-- Sample database whose quote has no token yet. -/
def exDbBare : DB :=
  { exDb with quotes := [exQuoteBare] }

/-- Witness for C9: the stored token `"tok1"` is returned unchanged, and on
a token-less quote the fresh token is stored with expiry `50 + 30`. -/
theorem ensure_quote_token_idempotent_witness :
    ensure_quote_token exDb 1 "fresh" 50 30 = ("tok1", exDb) ∧
    ensure_quote_token exDbBare 1 "fresh" 50 30
      = ("fresh", (create_quote_token exDbBare 1 "fresh" 50 30).2) ∧
    (create_quote_token exDbBare 1 "fresh" 50 30).2.quotes.find?
        (fun q' => q'.id == 1)
      = some
          { exQuoteBare with
              view_token := some "fresh",
              token_expires_at := some 80,
              updated_at := 50 } := by
  refine ⟨(ensure_quote_token_idempotent exDb 1 "fresh" 50 30 exQuote rfl).1
      "tok1" rfl (by decide), ?_, ?_⟩
  · exact ((ensure_quote_token_idempotent exDbBare 1 "fresh" 50 30 exQuoteBare rfl).2 rfl).1
  · have h := ((ensure_quote_token_idempotent exDbBare 1 "fresh" 50 30 exQuoteBare rfl).2 rfl).2
    exact h

/-! ## C5: token resolution -/

/-- Invariants the schema and the token service maintain on stored tokens:
tokens are never the empty string (they come from `secrets.token_urlsafe`),
and `view_token UNIQUE` means two rows never share a stored token. -/
def TokensWF (db : DB) : Prop :=
  (∀ q ∈ db.quotes, q.view_token ≠ some "") ∧
  db.quotes.Pairwise (fun a b => ∀ t, a.view_token = some t → b.view_token ≠ some t)

theorem tokenDistinct_symm :
    Symmetric (fun a b : QuoteRow =>
      ∀ t, a.view_token = some t → b.view_token ≠ some t) := by
  intro a b hab t hbt hat
  exact hab t hat hbt

theorem find_map_update_token (qid : Nat) (f : QuoteRow → QuoteRow)
    (tok : String) (hf : ∀ q', (f q').view_token = some tok) :
    ∀ (l : List QuoteRow) (q : QuoteRow),
      (∀ q' ∈ l, q'.view_token ≠ some tok) →
      l.find? (fun q' => q'.id == qid) = some q →
      (l.map (fun q' => if (q'.id == qid) = true then f q' else q')).find?
          (fun q' => q'.view_token == some tok) = some (f q) := by
  intro l
  induction l with
  | nil => intro q _ h; simp at h
  | cons a t ih =>
    intro q hnot h
    rw [List.find?_cons] at h
    rw [List.map_cons, List.find?_cons]
    by_cases ha : (a.id == qid) = true
    · rw [ha] at h
      dsimp only at h
      simp only [Option.some.injEq] at h
      subst h
      have hfa : ((f a).view_token == some tok) = true := by
        rw [hf a]
        exact beq_self_eq_true _
      simp only [if_pos ha, hfa]
    · have hab : (a.id == qid) = false := by simpa using ha
      rw [hab] at h
      dsimp only at h
      have hatok : (a.view_token == some tok) = false :=
        beq_eq_false_iff_ne.mpr (hnot a (List.mem_cons_self a t))
      simp only [hab, Bool.false_eq_true, if_false, hatok]
      exact ih q (fun q' hq' => hnot q' (List.mem_cons_of_mem a hq')) h

/-- C5: under the stored-token invariants, `get_quote_by_token` returns
`some qid` exactly when a quote with id `qid` stores exactly that token and
its stored expiry (if any) has not passed; and a token freshly minted by
`ensure_quote_token` resolves to its quote until `now` passes
`expires_at = mint_time + days`, after which it resolves to nothing. -/
theorem resolve_token_correct (db : DB) (hwf : TokensWF db) :
    (∀ now tok qid,
      get_quote_by_token now db tok = some qid ↔
        ∃ q, q ∈ db.quotes ∧ q.id = qid ∧ q.view_token = some tok ∧
          ∀ e, q.token_expires_at = some e → now ≤ e) ∧
    (∀ mintNow days resolveNow quote_id freshTok q,
      db.quotes.find? (fun q' => q'.id == quote_id) = some q →
      q.view_token = none → freshTok ≠ "" →
      (∀ q' ∈ db.quotes, q'.view_token ≠ some freshTok) →
      get_quote_by_token resolveNow
          (ensure_quote_token db quote_id freshTok mintNow days).2 freshTok
        = if resolveNow > mintNow + days then none else some q.id) := by
  constructor
  · intro now tok qid
    constructor
    · intro h
      unfold get_quote_by_token at h
      by_cases htok : tok = ""
      · rw [if_pos htok] at h
        exact absurd h (by simp)
      · rw [if_neg htok] at h
        cases hfind : db.quotes.find? (fun q => q.view_token == some tok) with
        | none => rw [hfind] at h; simp at h
        | some row =>
          rw [hfind] at h
          dsimp only at h
          have hmem := List.mem_of_find?_eq_some hfind
          have hrowtok : row.view_token = some tok := by
            have := List.find?_some hfind
            exact beq_iff_eq.mp this
          cases hexp : row.token_expires_at with
          | none =>
            rw [hexp] at h
            dsimp only at h
            simp only [Option.some.injEq] at h
            exact ⟨row, hmem, h, hrowtok, fun e he => by rw [hexp] at he; cases he⟩
          | some exp =>
            rw [hexp] at h
            dsimp only at h
            by_cases hlt : now > exp
            · rw [if_pos hlt] at h
              exact absurd h (by simp)
            · rw [if_neg hlt] at h
              simp only [Option.some.injEq] at h
              refine ⟨row, hmem, h, hrowtok, fun e he => ?_⟩
              rw [hexp] at he
              cases he
              omega
    · rintro ⟨q, hmem, hid, htokq, hexpq⟩
      have htok : tok ≠ "" := by
        intro hcontra
        subst hcontra
        exact hwf.1 q hmem htokq
      unfold get_quote_by_token
      rw [if_neg htok]
      cases hfind : db.quotes.find? (fun q' => q'.view_token == some tok) with
      | none =>
        exfalso
        exact absurd (beq_iff_eq.mpr htokq) (List.find?_eq_none.mp hfind q hmem)
      | some row =>
        have hrowmem := List.mem_of_find?_eq_some hfind
        have hb := List.find?_some hfind
        have hrowtok : row.view_token = some tok := beq_iff_eq.mp hb
        have hrq : row = q := by
          by_contra hne
          exact (hwf.2.forall tokenDistinct_symm hrowmem hmem hne) tok hrowtok htokq
        have hid' : row.id = qid := by rw [hrq]; exact hid
        have hexpq' : ∀ e, row.token_expires_at = some e → now ≤ e := by
          rw [hrq]; exact hexpq
        show (match row.token_expires_at with
          | some expiry => if now > expiry then none else some row.id
          | none => some row.id) = some qid
        cases hexp : row.token_expires_at with
        | none =>
          rw [hid']
        | some exp =>
          dsimp only
          rw [if_neg (by have := hexpq' exp hexp; omega), hid']
  · intro mintNow days resolveNow quote_id freshTok q hq hnone hfresh hnot
    have hget : get_token_for_quote db quote_id = none := by
      unfold get_token_for_quote
      rw [hq]
      exact hnone
    have hens : (ensure_quote_token db quote_id freshTok mintNow days).2
        = (create_quote_token db quote_id freshTok mintNow days).2 := by
      unfold ensure_quote_token
      rw [hget]
    rw [hens]
    unfold get_quote_by_token
    rw [if_neg hfresh]
    unfold create_quote_token
    dsimp only
    rw [find_map_update_token quote_id
      (fun q' =>
        { q' with
            view_token := some freshTok,
            token_expires_at := some (mintNow + days),
            updated_at := mintNow })
      freshTok (fun q' => rfl) db.quotes q hnot hq]

/-- Witness for C5 on the sample database: `"tok1"` (expiry 10) resolves to
quote 1 at time 5; an expired lookup at time 11 and a fresh mint both behave
as stated. -/
theorem resolve_token_correct_witness :
    get_quote_by_token 5 exDb "tok1" = some 1 ∧
    get_quote_by_token 11 exDb "tok1" = none ∧
    get_quote_by_token 7 (ensure_quote_token exDbBare 1 "fresh" 2 30).2 "fresh"
      = some 1 := by
  have hwf : TokensWF exDb := by
    constructor
    · intro q hq
      have : q = exQuote := by simpa [exDb] using hq
      subst this
      simp [exQuote]
    · show List.Pairwise _ [exQuote]
      exact List.pairwise_singleton _ _
  have hwfBare : TokensWF exDbBare := by
    constructor
    · intro q hq
      have : q = exQuoteBare := by simpa [exDbBare] using hq
      subst this
      simp [exQuoteBare, exQuote]
    · show List.Pairwise _ [exQuoteBare]
      exact List.pairwise_singleton _ _
  refine ⟨?_, ?_, ?_⟩
  · exact ((resolve_token_correct exDb hwf).1 5 "tok1" 1).mpr
      ⟨exQuote, by simp [exDb], rfl, rfl, by intro e he; cases he; omega⟩
  · cases hres : get_quote_by_token 11 exDb "tok1" with
    | none => rfl
    | some qid =>
      exfalso
      obtain ⟨q, hmem, -, htokq, hexpq⟩ :=
        ((resolve_token_correct exDb hwf).1 11 "tok1" qid).mp hres
      have : q = exQuote := by simpa [exDb] using hmem
      subst this
      have := hexpq 10 rfl
      omega
  · have h := (resolve_token_correct exDbBare hwfBare).2 2 30 7 1 "fresh"
      exQuoteBare rfl rfl (by decide)
      (by intro q' hq'
          have : q' = exQuoteBare := by simpa [exDbBare] using hq'
          subst this
          simp [exQuoteBare, exQuote])
    rw [h, if_neg (by omega)]
    rfl

/-! ## C8: `create_quote` is atomic -/

theorem itemRowsOf_length (qid : Nat) :
    ∀ (items : List ItemInput) (nid : Nat),
      (itemRowsOf qid nid items).length = items.length := by
  intro items
  induction items with
  | nil => intro nid; rfl
  | cons it rest ih =>
    intro nid
    simp only [itemRowsOf, List.length_cons, ih (nid + 1)]

theorem itemRowsOf_quote_id (qid : Nat) :
    ∀ (items : List ItemInput) (nid : Nat),
      ∀ row ∈ itemRowsOf qid nid items, row.quote_id = qid := by
  intro items
  induction items with
  | nil => intro nid row hrow; simp [itemRowsOf] at hrow
  | cons it rest ih =>
    intro nid row hrow
    rcases List.mem_cons.mp hrow with rfl | hmem
    · rfl
    · exact ih (nid + 1) row hmem

/-- C8: `create_quote` either persists the quote row together with all of
its item rows (one item row per input item, all attached to the new quote
id), or fails and leaves the database exactly as it was — never a partial
quote. -/
theorem create_quote_atomic (today year now : Nat) (db : DB) (client_id : Nat)
    (items : List ItemInput) (valid_days : Nat) (dt : String) (dv : Rat)
    (notes st : String) (cbu : Option Nat) (ip : Bool) (db' : DB)
    (r : Except DbErr Nat)
    (h : create_quote today year now db client_id items valid_days dt dv notes st cbu ip
          = (db', r)) :
    (∀ e, r = .error e → db' = db) ∧
    (∀ qid, r = .ok qid →
      db'.quotes = db.quotes ++
        [createdRow today year now db client_id valid_days dt dv notes st cbu ip] ∧
      db'.quote_items = db.quote_items
        ++ itemRowsOf db.next_quote_id db.next_item_id items ∧
      (itemRowsOf db.next_quote_id db.next_item_id items).length = items.length ∧
      ∀ row ∈ itemRowsOf db.next_quote_id db.next_item_id items,
        row.quote_id = qid) := by
  constructor
  · intro e he
    subst he
    exact create_quote_err_shape today year now db client_id items valid_days
      dt dv notes st cbu ip db' e h
  · intro qid hok
    subst hok
    obtain ⟨hqid, hdb', -, -⟩ := create_quote_ok_shape today year now db client_id
      items valid_days dt dv notes st cbu ip db' qid h
    subst hdb'
    subst hqid
    exact ⟨rfl, rfl, itemRowsOf_length _ items _, itemRowsOf_quote_id _ items _⟩

/-- Witness for C8: a successful creation on the sample database persists
quote and item together; a creation for a missing client fails and leaves
the database untouched. -/
theorem create_quote_atomic_witness :
    ((create_quote 0 2025 5 exDb 1 [ItemInput.mk 1 2 50] 30 "none" 0 "" "draft"
        (some 1) false).1.quotes
      = exDb.quotes ++ [createdRow 0 2025 5 exDb 1 30 "none" 0 "" "draft" (some 1) false] ∧
     (create_quote 0 2025 5 exDb 1 [ItemInput.mk 1 2 50] 30 "none" 0 "" "draft"
        (some 1) false).1.quote_items
      = exDb.quote_items ++ itemRowsOf exDb.next_quote_id exDb.next_item_id
          [ItemInput.mk 1 2 50]) ∧
    (create_quote 0 2025 5 exDb 99 [] 30 "none" 0 "" "draft" (some 1) false).1
      = exDb := by
  constructor
  · have h := (create_quote_atomic 0 2025 5 exDb 1 [ItemInput.mk 1 2 50] 30 "none" 0
      "" "draft" (some 1) false
      (create_quote 0 2025 5 exDb 1 [ItemInput.mk 1 2 50] 30 "none" 0 "" "draft"
        (some 1) false).1
      (.ok 2) rfl).2 2 rfl
    exact ⟨h.1, h.2.1⟩
  · exact (create_quote_atomic 0 2025 5 exDb 99 [] 30 "none" 0 "" "draft" (some 1)
      false
      (create_quote 0 2025 5 exDb 99 [] 30 "none" 0 "" "draft" (some 1) false).1
      (.error .fkViolation) rfl).1 .fkViolation rfl

/-! ## C10: `update_quote` frame conditions -/

/-- The updated quote row written by `update_quote`. -/
def updatedRow (now : Nat) (client_id : Nat) (discount_type : String)
    (discount_value : Rat) (notes status : String) (q : QuoteRow) : QuoteRow :=
  { q with
      client_id := client_id,
      discount_type := discount_type,
      discount_value := discount_value,
      notes := strOrNone notes,
      status := status,
      updated_at := now }

theorem update_quote_ok_shape (now : Nat) (db : DB) (quote_id client_id : Nat)
    (items : List ItemInput) (dt : String) (dv : Rat) (notes st : String)
    (db' : DB)
    (h : update_quote now db quote_id client_id items dt dv notes st
          = (db', .ok true)) :
    db' = { db with
              quotes := db.quotes.map (fun q =>
                if q.id == quote_id then updatedRow now client_id dt dv notes st q
                else q),
              quote_items := db.quote_items.filter (fun qi => qi.quote_id != quote_id)
                ++ itemRowsOf quote_id db.next_item_id items,
              next_item_id := db.next_item_id + items.length } := by
  unfold update_quote at h
  by_cases hex : ¬ db.quotes.any (fun q => q.id == quote_id)
  · rw [if_pos hex] at h
    simp at h
  · rw [if_neg hex] at h
    cases hq : quoteUpdateErr db client_id dt st with
    | some e => rw [hq] at h; simp at h
    | none =>
      rw [hq] at h
      cases hi : insertQuoteItems db quote_id db.next_item_id items with
      | error e => rw [hi] at h; simp at h
      | ok rows =>
        rw [hi] at h
        have hrows := insertQuoteItems_ok db quote_id items db.next_item_id rows hi
        subst hrows
        have h1 := (Prod.mk.injEq .. ▸ h).1
        rw [← h1]
        rfl

theorem update_quote_noop_shape (now : Nat) (db : DB) (quote_id client_id : Nat)
    (items : List ItemInput) (dt : String) (dv : Rat) (notes st : String)
    (db' : DB) (r : Except DbErr Bool)
    (h : update_quote now db quote_id client_id items dt dv notes st = (db', r)) :
    (r = .ok false → db' = db) ∧ (∀ e, r = .error e → db' = db) := by
  unfold update_quote at h
  by_cases hex : ¬ db.quotes.any (fun q => q.id == quote_id)
  · rw [if_pos hex] at h
    obtain ⟨h1, h2⟩ := Prod.mk.injEq .. ▸ h
    exact ⟨fun _ => h1.symm, fun e he => by rw [← h2] at he; cases he⟩
  · rw [if_neg hex] at h
    cases hq : quoteUpdateErr db client_id dt st with
    | some e =>
      rw [hq] at h
      obtain ⟨h1, h2⟩ := Prod.mk.injEq .. ▸ h
      refine ⟨fun hb => ?_, fun e' he => h1.symm⟩
      rw [← h2] at hb
      cases hb
    | none =>
      rw [hq] at h
      cases hi : insertQuoteItems db quote_id db.next_item_id items with
      | error e =>
        rw [hi] at h
        obtain ⟨h1, h2⟩ := Prod.mk.injEq .. ▸ h
        refine ⟨fun hb => ?_, fun e' he => h1.symm⟩
        rw [← h2] at hb
        cases hb
      | ok rows =>
        rw [hi] at h
        obtain ⟨h1, h2⟩ := Prod.mk.injEq .. ▸ h
        refine ⟨fun hb => ?_, fun e' he => ?_⟩
        · rw [← h2] at hb; cases hb
        · rw [← h2] at he; cases he

/-- C10: `update_quote` changes only `client_id`, `discount_type`,
`discount_value`, `notes`, `status`, `updated_at` and the quote's item set
(fully replaced); `quote_number`, `issue_date`, `valid_until`, `view_token`,
`token_expires_at`, `created_by_user_id`, `is_public` (and `created_at`,
other quotes, clients and services) are untouched.  No-op and failed calls
leave everything unchanged. -/
theorem update_quote_frame (now : Nat) (db : DB) (quote_id client_id : Nat)
    (items : List ItemInput) (dt : String) (dv : Rat) (notes st : String)
    (db' : DB) (r : Except DbErr Bool)
    (h : update_quote now db quote_id client_id items dt dv notes st = (db', r)) :
    (r = .ok false → db' = db) ∧
    (∀ e, r = .error e → db' = db) ∧
    (r = .ok true →
      db'.clients = db.clients ∧
      db'.services = db.services ∧
      db'.quote_items = db.quote_items.filter (fun qi => qi.quote_id != quote_id)
        ++ itemRowsOf quote_id db.next_item_id items ∧
      ∀ q ∈ db.quotes, ∃ q', q' ∈ db'.quotes ∧
        q'.id = q.id ∧
        q'.quote_number = q.quote_number ∧
        q'.issue_date = q.issue_date ∧
        q'.valid_until = q.valid_until ∧
        q'.view_token = q.view_token ∧
        q'.token_expires_at = q.token_expires_at ∧
        q'.created_by_user_id = q.created_by_user_id ∧
        q'.is_public = q.is_public ∧
        q'.created_at = q.created_at ∧
        (¬(q.id == quote_id) = true → q' = q) ∧
        ((q.id == quote_id) = true → q' = updatedRow now client_id dt dv notes st q)) := by
  obtain ⟨hnoop1, hnoop2⟩ := update_quote_noop_shape now db quote_id client_id items
    dt dv notes st db' r h
  refine ⟨hnoop1, hnoop2, fun hok => ?_⟩
  subst hok
  have hdb' := update_quote_ok_shape now db quote_id client_id items dt dv notes st db' h
  subst hdb'
  refine ⟨rfl, rfl, rfl, fun q hq => ?_⟩
  refine ⟨(fun q0 => if q0.id == quote_id then updatedRow now client_id dt dv notes st q0
      else q0) q, List.mem_map_of_mem _ hq, ?_⟩
  dsimp only
  by_cases hid : (q.id == quote_id) = true
  · rw [if_pos hid]
    exact ⟨rfl, rfl, rfl, rfl, rfl, rfl, rfl, rfl, rfl,
      fun hcontra => absurd hid hcontra, fun _ => rfl⟩
  · rw [if_neg hid]
    exact ⟨rfl, rfl, rfl, rfl, rfl, rfl, rfl, rfl, rfl,
      fun _ => rfl, fun hcontra => absurd hcontra hid⟩

/-- Witness for C10: updating the sample quote (new client would be the
same, new discount, new status) leaves all frame fields of the stored quote
unchanged. -/
theorem update_quote_frame_witness :
    ((update_quote 9 exDb 1 1 [ItemInput.mk 1 4 25] "fixed" 10 "n" "sent").1.clients
      = exDb.clients) ∧
    ∃ q', q' ∈ (update_quote 9 exDb 1 1 [ItemInput.mk 1 4 25] "fixed" 10 "n" "sent").1.quotes ∧
      q'.quote_number = exQuote.quote_number ∧
      q'.view_token = exQuote.view_token ∧
      q'.valid_until = exQuote.valid_until := by
  have h := update_quote_frame 9 exDb 1 1 [ItemInput.mk 1 4 25] "fixed" 10 "n" "sent"
    (update_quote 9 exDb 1 1 [ItemInput.mk 1 4 25] "fixed" 10 "n" "sent").1
    (.ok true) rfl
  obtain ⟨hcl, -, -, hq⟩ := h.2.2 rfl
  obtain ⟨q', hq'mem, -, hnum, -, hvalid, htok, -⟩ := hq exQuote (by simp [exDb])
  exact ⟨hcl, q', hq'mem, hnum, htok, hvalid⟩

/-! ## C4: quote details recompute totals from the stored items -/

theorem quoteInsertErr_none_client (db : DB) (qn : String) (cid : Nat)
    (dt st : String) (h : quoteInsertErr db qn cid dt st = none) :
    (db.clients.find? (fun c => c.id == cid)).isSome = true := by
  cases hfind : db.clients.find? (fun c => c.id == cid) with
  | some c => rfl
  | none =>
    exfalso
    unfold quoteInsertErr at h
    rw [hfind] at h
    split_ifs at h <;> simp_all

theorem joined_itemRows (db : DB) (qid : Nat) :
    ∀ (items : List ItemInput) (nid : Nat),
      (∀ it ∈ items, (db.services.find? (fun s => s.id == it.service_id)).isSome = true) →
      ((itemRowsOf qid nid items).filterMap
        (fun qi => (db.services.find? (fun s => s.id == qi.service_id)).map
          (fun s => JoinedItem.mk qi s.name s.description))).map
            (fun j => ItemQU.mk j.item.quantity j.item.unit_price)
        = items.map (fun it => ItemQU.mk it.quantity it.unit_price) := by
  intro items
  induction items with
  | nil => intro nid h; rfl
  | cons it rest ih =>
    intro nid h
    have hs := h it (List.mem_cons_self it rest)
    obtain ⟨s, hs'⟩ := Option.isSome_iff_exists.mp hs
    simp only [itemRowsOf, List.filterMap_cons, hs', Option.map_some', List.map_cons]
    congr 1
    exact ih (nid + 1) (fun it' h' => h it' (List.mem_cons_of_mem it h'))

/-- C4: reading a freshly created quote with `get_quote_details` always
recomputes the totals via `_calculate_totals` from the stored items, which
equal the items passed to `create_quote`. -/
theorem create_then_details_recomputes_totals (today year now : Nat) (db : DB)
    (client_id : Nat) (items : List ItemInput) (valid_days : Nat) (dt : String)
    (dv : Rat) (notes st : String) (cbu : Option Nat) (ip : Bool) (db' : DB)
    (qid : Nat)
    (hfq : ∀ q ∈ db.quotes, q.id ≠ db.next_quote_id)
    (hfi : ∀ qi ∈ db.quote_items, qi.quote_id ≠ db.next_quote_id)
    (hc : create_quote today year now db client_id items valid_days dt dv notes st cbu ip
            = (db', .ok qid)) :
    ∃ d, get_quote_details db' qid = some d ∧
      d.quote.discount_type = dt ∧
      d.quote.discount_value = dv ∧
      d.totals = _calculate_totals
        (items.map (fun it => ItemQU.mk it.quantity it.unit_price)) dt dv := by
  obtain ⟨hqid, hdb', herr, hins⟩ := create_quote_ok_shape today year now db client_id
    items valid_days dt dv notes st cbu ip db' qid hc
  subst hqid
  subst hdb'
  have hrow : (db.quotes ++
        [createdRow today year now db client_id valid_days dt dv notes st cbu ip]).find?
        (fun q => q.id == db.next_quote_id)
      = some (createdRow today year now db client_id valid_days dt dv notes st cbu ip) := by
    rw [List.find?_append]
    have hold : db.quotes.find? (fun q => q.id == db.next_quote_id) = none :=
      List.find?_eq_none.mpr (fun q hq => by simpa using hfq q hq)
    rw [hold, Option.none_or, List.find?_singleton]
    rw [if_pos (by exact beq_self_eq_true _)]
  have hcl := quoteInsertErr_none_client db (generate_quote_number year db) client_id
    dt st herr
  obtain ⟨c, hc'⟩ := Option.isSome_iff_exists.mp hcl
  have hc'' : db.clients.find? (fun cl => cl.id ==
      (createdRow today year now db client_id valid_days dt dv notes st cbu ip).client_id)
      = some c := hc'
  have hfil : (db.quote_items
        ++ itemRowsOf db.next_quote_id db.next_item_id items).filter
        (fun qi => qi.quote_id == db.next_quote_id)
      = itemRowsOf db.next_quote_id db.next_item_id items := by
    rw [List.filter_append,
      List.filter_eq_nil_iff.mpr (fun qi hqi => by simpa using hfi qi hqi),
      List.filter_eq_self.mpr
        (fun row hrow => by
          simpa using itemRowsOf_quote_id db.next_quote_id items db.next_item_id row hrow),
      List.nil_append]
  have hserv := insertQuoteItems_ok_services db db.next_quote_id items db.next_item_id
    (itemRowsOf db.next_quote_id db.next_item_id items) hins
  unfold get_quote_details
  dsimp only
  rw [hrow]
  dsimp only
  rw [hc'']
  dsimp only
  rw [hfil]
  refine ⟨_, rfl, rfl, rfl, ?_⟩
  dsimp only
  rw [joined_itemRows db db.next_quote_id items db.next_item_id hserv]
  rfl

/-- Witness for C4: creating a quote on the sample database with one item of
quantity 2 at price 50 and reading it back recomputes the totals from the
stored items. -/
theorem create_then_details_recomputes_totals_witness :
    ∃ d, get_quote_details
        (create_quote 0 2025 5 exDb 1 [ItemInput.mk 1 2 50] 30 "none" 0 "" "draft"
          (some 1) false).1 2
      = some d ∧
      d.quote.discount_type = "none" ∧
      d.quote.discount_value = 0 ∧
      d.totals = _calculate_totals
        ([ItemInput.mk 1 2 50].map (fun it => ItemQU.mk it.quantity it.unit_price))
        "none" 0 :=
  create_then_details_recomputes_totals 0 2025 5 exDb 1 [ItemInput.mk 1 2 50] 30
    "none" 0 "" "draft" (some 1) false
    (create_quote 0 2025 5 exDb 1 [ItemInput.mk 1 2 50] 30 "none" 0 "" "draft"
      (some 1) false).1 2
    (by intro q hq; simp [exDb] at hq; subst hq; decide)
    (by intro qi hqi; simp [exDb] at hqi; subst hqi; decide)
    rfl
